import Mathlib

/-!
Verification of the loss functions and data utilities of the
Deep_learning_project repository: Project_2/loss.py, Project_2/util.py and
Project_1/util.py.

Embedding conventions.  A rank-2 torch tensor of shape (n, m) — batch
dimension first, as used throughout the repository — is a function
Fin n → Fin m → ℝ; torch elementwise operations become pointwise
operations and torch sum(dim=0) becomes a Finset sum over the first index.
Machine floats are modelled by real numbers.  torch log followed by
clamp(-100, inf) on a nonnegative input is modelled by clampLog below:
torch gives log 0 = -inf, which the clamp maps to -100, and on positive
inputs the clamp is max with -100.  Where torch log appears unclamped
(the target gradient of LossBCEGradFN.backward) it is modelled by
Real.log, which agrees with torch log on positive inputs.

HyperCube (core.py) is not part of the available sources; a HyperCube is
represented by its value tensor, a loss call by the value of the HyperCube
it returns, and a gradient-function backward by the pair of gradient
tensors it passes to input_.backward and target.backward.  Where a claim
needs the accumulate-and-propagate semantics of HyperCube.backward itself,
that semantics is modelled from the spec (see mseBackwardStep below).
-/

open Finset

/-- Rank-2 tensor of shape (n, m): the batch dimension is the first index. -/
abbrev Tensor (n m : ℕ) : Type := Fin n → Fin m → ℝ

/-- Elementwise subtraction, torch a - b on equal shapes. -/
def subT {n m : ℕ} (a b : Tensor n m) : Tensor n m := fun i j => a i j - b i j

/-- Elementwise addition, torch a + b on equal shapes. -/
def addT {n m : ℕ} (a b : Tensor n m) : Tensor n m := fun i j => a i j + b i j

/-- Elementwise multiplication, torch a * b on equal shapes. -/
def mulT {n m : ℕ} (a b : Tensor n m) : Tensor n m := fun i j => a i j * b i j

/-- Elementwise division, torch a / b on equal shapes. -/
noncomputable def divT {n m : ℕ} (a b : Tensor n m) : Tensor n m := fun i j => a i j / b i j

/-- Elementwise negation, torch -a. -/
def negT {n m : ℕ} (a : Tensor n m) : Tensor n m := fun i j => -(a i j)

/-- Elementwise natural power, torch a ** k. -/
def powT {n m : ℕ} (a : Tensor n m) (k : ℕ) : Tensor n m := fun i j => (a i j) ^ k

/-- Elementwise maximum, torch a.maximum(b). -/
def maxT {n m : ℕ} (a b : Tensor n m) : Tensor n m := fun i j => max (a i j) (b i j)

/-- torch ones_like(x) for x of shape (n, m): the all-ones tensor. -/
def onesT (n m : ℕ) : Tensor n m := fun _ _ => 1

/-- Broadcast multiplication of a python scalar with a tensor, torch c * a. -/
def scMulT {n m : ℕ} (c : ℝ) (a : Tensor n m) : Tensor n m := fun i j => c * a i j

/-- torch t.sum(dim=0) on a tensor of shape (n, m): reduces the batch
dimension only, leaving a tensor of shape (m,). -/
def sumDim0 {n m : ℕ} (t : Tensor n m) : Fin m → ℝ := fun j => ∑ i, t i j

/-- Broadcast multiplication of a python scalar with a rank-1 tensor. -/
def scMulV {m : ℕ} (c : ℝ) (v : Fin m → ℝ) : Fin m → ℝ := fun j => c * v j

/-- Elementwise negation of a rank-1 tensor. -/
def negV {m : ℕ} (v : Fin m → ℝ) : Fin m → ℝ := fun j => -(v j)

/-- Number of entries of a rank-1 tensor of shape (m,), torch numel. -/
def numelV {m : ℕ} (_v : Fin m → ℝ) : ℕ := m

/-- LossMSE.__call__ (Project_2/loss.py): the value of the HyperCube it
returns, 1 / 2 * ((input_.value - target.value) ** 2).sum(dim=0). -/
noncomputable def LossMSE_call {n m : ℕ} (input_ target : Tensor n m) : Fin m → ℝ :=
  scMulV (1 / 2) (sumDim0 (powT (subT input_ target) 2))

/-- LossMSEGradFN.backward (Project_2/loss.py): computes
input_grad = (input_.value - target.value) * output_grad and passes
input_grad to input_.backward and -input_grad to target.backward; the
result pair is (gradient passed to input_, gradient passed to target). -/
def LossMSEGradFN_backward {n m : ℕ} (input_ target output_grad : Tensor n m) :
    Tensor n m × Tensor n m :=
  let input_grad := mulT (subT input_ target) output_grad
  (input_grad, negT input_grad)

/-- torch x.log().clamp(-100, float("inf")) for an input x with 0 ≤ x ≤ 1,
as used by LossBCE.__call__: torch log 0 = -inf, which the clamp maps to
-100; on positive inputs the clamp is max with -100. -/
noncomputable def clampLog (x : ℝ) : ℝ :=
  if x = 0 then -100 else max (Real.log x) (-100)

/-- Elementwise clamped logarithm, torch t.log().clamp(-100, float("inf")). -/
noncomputable def clampLogT {n m : ℕ} (t : Tensor n m) : Tensor n m :=
  fun i j => clampLog (t i j)

/-- Elementwise unclamped logarithm, torch t.log() on positive entries. -/
noncomputable def logT {n m : ℕ} (t : Tensor n m) : Tensor n m :=
  fun i j => Real.log (t i j)

/-- The value of the HyperCube built by LossBCE.__call__ (Project_2/loss.py):
-(target.value * input_.value.log().clamp(-100, inf)
  + (1 - target.value) * (1 - input_.value).log().clamp(-100, inf)).sum(dim=0). -/
noncomputable def LossBCE_value {n m : ℕ} (input_ target : Tensor n m) : Fin m → ℝ :=
  negV (sumDim0 (addT (mulT target (clampLogT input_))
    (mulT (subT (onesT n m) target) (clampLogT (subT (onesT n m) input_)))))

open Classical in
/-- LossBCE.__call__ (Project_2/loss.py): asserts
torch.all(input_.value >= 0) and torch.all(input_.value <= 1) before any
loss computation; a failed assertion raises (modelled as none) and no
HyperCube is returned, otherwise the returned HyperCube carries
LossBCE_value. -/
noncomputable def LossBCE_call {n m : ℕ} (input_ target : Tensor n m) :
    Option (Fin m → ℝ) :=
  if (∀ i j, 0 ≤ input_ i j) ∧ (∀ i j, input_ i j ≤ 1) then
    some (LossBCE_value input_ target)
  else
    none

/-- LossBCEGradFN.backward (Project_2/loss.py): with x = input_.value,
y = target.value and eps = ones_like(x) * 1e-12 it passes
((x - y) / ((1 - x) * x).maximum(eps)) * output_grad to input_.backward and
(-x.log() + (1 - x).log()) * output_grad to target.backward; the result
pair is (gradient passed to input_, gradient passed to target). -/
noncomputable def LossBCEGradFN_backward {n m : ℕ} (input_ target output_grad : Tensor n m) :
    Tensor n m × Tensor n m :=
  let x := input_
  let y := target
  let eps := scMulT 1e-12 (onesT n m)
  let input_grad := mulT (divT (subT x y) (maxT (mulT (subT (onesT n m) x) x) eps)) output_grad
  (input_grad, mulT (addT (negT (logT x)) (logT (subT (onesT n m) x))) output_grad)

/-- C1: LossMSE.__call__ returns a HyperCube whose value is one half of
the sum over the batch dimension (dimension 0) of the squared differences,
with no averaging over the number of examples. -/
theorem C1_mse_value {n m : ℕ} (pred target : Tensor n m) :
    LossMSE_call pred target
      = fun j => (1 / 2) * ∑ i, (pred i j - target i j) ^ 2 := by
  funext j
  simp [LossMSE_call, scMulV, sumDim0, powT, subT]

/-- C2: LossMSEGradFN.backward propagates (pred - target) * output_grad to
the prediction HyperCube and -((pred - target) * output_grad) to the target
HyperCube. -/
theorem C2_mse_backward {n m : ℕ} (pred target g : Tensor n m) :
    (LossMSEGradFN_backward pred target g).1
        = (fun i j => (pred i j - target i j) * g i j)
      ∧ (LossMSEGradFN_backward pred target g).2
        = (fun i j => -((pred i j - target i j) * g i j)) := by
  constructor
  · funext i j
    simp [LossMSEGradFN_backward, mulT, subT]
  · funext i j
    simp [LossMSEGradFN_backward, mulT, subT, negT]

/-- C3: on a prediction with entries in [0,1], LossBCE.__call__ returns a
HyperCube whose value is -sum(target*log(pred) + (1-target)*log(1-pred))
over the batch dimension, each logarithm term clamped from below at -100;
every clamped term is at least -100, so the value stays finite even when a
prediction entry is exactly 0 or 1. -/
theorem C3_bce_value {n m : ℕ} (pred target : Tensor n m)
    (h0 : ∀ i j, 0 ≤ pred i j) (h1 : ∀ i j, pred i j ≤ 1) :
    LossBCE_call pred target
        = some (fun j => -∑ i,
            (target i j * clampLog (pred i j)
              + (1 - target i j) * clampLog (1 - pred i j)))
      ∧ (∀ i j, -100 ≤ clampLog (pred i j) ∧ -100 ≤ clampLog (1 - pred i j)) := by
  constructor
  · rw [LossBCE_call, if_pos ⟨h0, h1⟩]
    rfl
  · intro i j
    constructor <;>
      · rw [clampLog]
        split
        · exact le_refl _
        · exact le_max_right _ _

/-- C3 witness: at the saturated prediction 0 with target 1 (batch of one),
the clamped-log BCE value is the finite number 100. -/
theorem C3_bce_value_witness :
    LossBCE_call (fun _ _ => 0 : Tensor 1 1) (fun _ _ => 1) = some (fun _ => 100) := by
  have h := (C3_bce_value (fun _ _ => 0 : Tensor 1 1) (fun _ _ => 1)
    (fun _ _ => le_refl 0) (fun _ _ => zero_le_one)).1
  rw [h]
  congr 1
  funext j
  rw [Fin.sum_univ_one]
  rw [clampLog, if_pos rfl]
  norm_num

/-- C4: LossBCEGradFN.backward passes
((x - y) / max(x*(1-x), 1e-12)) * output_grad to the prediction HyperCube
(the epsilon guard applied per-element) and
(-log(x) + log(1-x)) * output_grad to the target HyperCube; the divisor of
the prediction gradient is at least 1e-12, hence positive, so the
prediction gradient never divides by zero even when x saturates to 0 or 1. -/
theorem C4_bce_backward {n m : ℕ} (pred target g : Tensor n m) :
    (LossBCEGradFN_backward pred target g).1
        = (fun i j =>
            ((pred i j - target i j) / max (pred i j * (1 - pred i j)) 1e-12) * g i j)
      ∧ (LossBCEGradFN_backward pred target g).2
        = (fun i j => (-Real.log (pred i j) + Real.log (1 - pred i j)) * g i j)
      ∧ (∀ i j, 0 < max (pred i j * (1 - pred i j)) 1e-12) := by
  refine ⟨?_, ?_, ?_⟩
  · funext i j
    show ((pred i j - target i j)
        / max ((1 - pred i j) * pred i j) (1e-12 * 1)) * g i j = _
    rw [mul_one, mul_comm (1 - pred i j)]
  · funext i j
    rfl
  · intro i j
    exact lt_of_lt_of_le (by norm_num) (le_max_right _ _)

/-- C5: a prediction with an entry outside [0,1] makes LossBCE.__call__
fail its assertion before any loss computation: no HyperCube is returned
and the input is not clamped. -/
theorem C5_bce_assert {n m : ℕ} (pred target : Tensor n m)
    (h : ∃ i j, pred i j < 0 ∨ 1 < pred i j) :
    LossBCE_call pred target = none := by
  have hno : ¬ ((∀ i j, 0 ≤ pred i j) ∧ (∀ i j, pred i j ≤ 1)) := by
    rintro ⟨ha, hb⟩
    obtain ⟨i, j, hc⟩ := h
    rcases hc with hlt | hgt
    · exact absurd (ha i j) (not_le.2 hlt)
    · exact absurd (hb i j) (not_le.2 hgt)
  rw [LossBCE_call, if_neg hno]

/-- C5 witness: prediction 2 (outside [0,1]) on a one-element batch is
rejected by LossBCE.__call__. -/
theorem C5_bce_assert_witness :
    LossBCE_call (fun _ _ => 2 : Tensor 1 1) (fun _ _ => 0) = none :=
  C5_bce_assert _ _ ⟨0, 0, Or.inr (by norm_num)⟩

/-- Modelled from the spec: HyperCube.backward lives in core.py, which is
not among the available sources; per the spec it accumulates the seed into
the grad of the node (grad += seed, never overwrite) and, when a grad_fn is
present, invokes its backward with the seed, which calls backward on each
input node with the local gradient of that input.  This structure holds the
accumulated grads of the three nodes of a loss graph: the loss node
(value and grad of shape (m,)) and the two leaf nodes input_ and target
(grads of shape (n, m)). -/
@[ext]
structure LossGraphGrads (n m : ℕ) where
  lossGrad : Fin m → ℝ
  inputGrad : Tensor n m
  targetGrad : Tensor n m

/-- Modelled from the spec: one call of backward(g) on the HyperCube
returned by LossMSE.__call__, with LossMSEGradFN.backward
(Project_2/loss.py) supplying the local gradients: the loss node
accumulates g, input_ accumulates (x - y) * g and target accumulates
-((x - y) * g), the seed of shape (m,) broadcasting over the batch
dimension in the elementwise multiply as torch broadcasting does. -/
def mseBackwardStep {n m : ℕ} (x y : Tensor n m) (g : Fin m → ℝ)
    (s : LossGraphGrads n m) : LossGraphGrads n m :=
  ⟨fun j => s.lossGrad j + g j,
   fun i j => s.inputGrad i j + (x i j - y i j) * g j,
   fun i j => s.targetGrad i j + -((x i j - y i j) * g j)⟩

/-- Modelled from the spec: one call of backward(g) on the HyperCube
returned by LossBCE.__call__, with LossBCEGradFN.backward
(Project_2/loss.py) supplying the local gradients: input_ accumulates
((x - y) / ((1 - x) * x).maximum(1e-12)) * g and target accumulates
(-log x + log (1 - x)) * g. -/
noncomputable def bceBackwardStep {n m : ℕ} (x y : Tensor n m) (g : Fin m → ℝ)
    (s : LossGraphGrads n m) : LossGraphGrads n m :=
  ⟨fun j => s.lossGrad j + g j,
   fun i j => s.inputGrad i j
     + ((x i j - y i j) / max ((1 - x i j) * x i j) 1e-12) * g j,
   fun i j => s.targetGrad i j
     + (-Real.log (x i j) + Real.log (1 - x i j)) * g j⟩

/-- C6: running backward(g1) and then backward(g2) on a loss node, with no
intervening gradient zeroing, accumulates exactly the grads of a single
backward(g1 + g2) call on every node of the graph, for both the MSE and
the BCE loss: the propagated gradients are additive in the output
gradient. -/
theorem C6_backward_accumulation {n m : ℕ} (x y : Tensor n m)
    (g1 g2 : Fin m → ℝ) (s : LossGraphGrads n m) :
    mseBackwardStep x y g2 (mseBackwardStep x y g1 s)
        = mseBackwardStep x y (fun j => g1 j + g2 j) s
      ∧ bceBackwardStep x y g2 (bceBackwardStep x y g1 s)
        = bceBackwardStep x y (fun j => g1 j + g2 j) s := by
  constructor
  · ext <;> · simp only [mseBackwardStep]; ring
  · ext <;> · simp only [bceBackwardStep]; ring

namespace Project2

/-- torch train_x.value.mean() on an (n, m) tensor: mean of all entries. -/
noncomputable def meanAll {n m : ℕ} (t : Tensor n m) : ℝ :=
  (∑ i, ∑ j, t i j) / (n * m)

/-- torch train_x.value.std() on an (n, m) tensor: unbiased standard
deviation of all entries, with Bessel correction n * m - 1. -/
noncomputable def stdAll {n m : ℕ} (t : Tensor n m) : ℝ :=
  Real.sqrt ((∑ i, ∑ j, (t i j - meanAll t) ^ 2) / (n * m - 1))

/-- normalize (Project_2/util.py): computes mean and std of the train
values, then executes train_x.value.sub_(mean).div_(std) and
test_x.value.sub_(mean).div_(std) — in-place subtraction and division on
the value tensors of the two argument HyperCubes — and returns the same
two HyperCubes.  The result pair holds the post-call values of the train
and test nodes. -/
noncomputable def normalize {n m : ℕ} (train_x test_x : Tensor n m) :
    Tensor n m × Tensor n m :=
  let mean := meanAll train_x
  let std := stdAll train_x
  (fun i j => (train_x i j - mean) / std,
   fun i j => (test_x i j - mean) / std)

end Project2

/-- LossMSE.__call__ as a transformer of the values of the pre-existing
nodes it touches: the call reads input_.value and target.value and writes
neither (the only tensor it creates is the value of the new loss node), so the
post-call values of the two argument HyperCubes are the arguments
unchanged, paired with the value of the new node. -/
noncomputable def LossMSE_callValues {n m : ℕ} (input_ target : Tensor n m) :
    (Tensor n m × Tensor n m) × (Fin m → ℝ) :=
  ((input_, target), LossMSE_call input_ target)

/-- LossBCE.__call__ as a transformer of the values of the pre-existing
nodes it touches: the assertion and the loss expression only read
input_.value and target.value, so the post-call values of the two argument
HyperCubes are the arguments unchanged. -/
noncomputable def LossBCE_callValues {n m : ℕ} (input_ target : Tensor n m) :
    (Tensor n m × Tensor n m) × Option (Fin m → ℝ) :=
  ((input_, target), LossBCE_call input_ target)

/-- C7 is refuted: Project_2 normalize mutates the value of its train
input HyperCube in place.  With train values (0, 2) — mean 1, unbiased
std sqrt 2 — the first entry of the train node becomes (0 - 1)/sqrt 2, which is
not the original 0. -/
theorem C7_counterexample :
    (Project2.normalize (fun i _ => if i = 0 then 0 else 2 : Tensor 2 1)
        (fun _ _ => 0)).1
      ≠ (fun i _ => if i = 0 then 0 else 2) := by
  intro h
  have h0 := congrFun (congrFun h 0) 0
  simp only [Project2.normalize, Project2.meanAll, Project2.stdAll,
    Fin.sum_univ_two, Fin.sum_univ_one] at h0
  norm_num at h0

/-- C7 amended: the loss calls leave the values of their input HyperCubes
unchanged (they only read them and allocate a new node), but the
data-preparation utility Project_2 normalize does mutate the values of
both of its argument HyperCubes in place, replacing every entry v by
(v - mean)/std with mean and std taken from the train values. -/
theorem C7_amended {n m : ℕ} (x y train_x test_x : Tensor n m) :
    (LossMSE_callValues x y).1 = (x, y)
      ∧ (LossBCE_callValues x y).1 = (x, y)
      ∧ Project2.normalize train_x test_x
          = (fun i j =>
               (train_x i j - Project2.meanAll train_x) / Project2.stdAll train_x,
             fun i j =>
               (test_x i j - Project2.meanAll train_x) / Project2.stdAll train_x) :=
  ⟨rfl, rfl, rfl⟩

/-- C8 is refuted: on a prediction of shape (1, 2) — two output columns —
LossMSE.__call__ returns a HyperCube whose value has two entries, not a
single number: sum(dim=0) reduces only the batch dimension. -/
theorem C8_counterexample :
    numelV (LossMSE_call (fun _ _ => 0 : Tensor 1 2) (fun _ _ => 0)) ≠ 1 := by
  simp [numelV]

/-- C8 amended: a loss call on an (n, m) prediction returns a HyperCube
whose value has shape (m,) — one entry per output column, with only the
batch dimension summed away — so the value is a single number exactly when
the prediction has a single column, m = 1, as in the usage of this repository. -/
theorem C8_amended {n m : ℕ} (pred target : Tensor n m) :
    numelV (LossMSE_call pred target) = m
      ∧ numelV (LossBCE_value pred target) = m
      ∧ (m = 1 → numelV (LossMSE_call pred target) = 1) :=
  ⟨rfl, rfl, fun h => by simp [numelV, h]⟩

/-- Runtime-shaped tensor of rank at most 2, as torch tensors appear
dynamically: a scalar, a vector of length m, or a matrix of shape (n, m).
Entries are total functions on ℕ; indices past the shape are irrelevant. -/
inductive TVal where
  | sc (c : ℝ)
  | vec (m : ℕ) (v : ℕ → ℝ)
  | mat (n m : ℕ) (a : ℕ → ℕ → ℝ)

/-- torch shape of a runtime tensor. -/
def tshape : TVal → List ℕ
  | .sc _ => []
  | .vec m _ => [m]
  | .mat n m _ => [n, m]

/-- torch broadcast of one dimension pair: equal sizes pass through, a
size-1 dimension stretches to the other size, and any other combination is
a RuntimeError, modelled as none. -/
def bdim (a b : ℕ) : Option ℕ :=
  if a = b then some a else if a = 1 then some b else if b = 1 then some a else none

/-- Broadcast index: a size-1 dimension always reads its single entry. -/
def bix (k i : ℕ) : ℕ := if k = 1 then 0 else i

/-- torch broadcasting elementwise binary operation on tensors of rank at
most 2; none models the RuntimeError raised on non-broadcastable shapes.
A missing dimension counts as size 1, so a scalar combines with anything
and a vector aligns with the last (column) dimension of a matrix, as torch
aligns shapes from the right. -/
def bbin (f : ℝ → ℝ → ℝ) : TVal → TVal → Option TVal
  | .sc a, .sc b => some (.sc (f a b))
  | .sc a, .vec m v => some (.vec m fun j => f a (v j))
  | .vec m v, .sc b => some (.vec m fun j => f (v j) b)
  | .sc a, .mat n m t => some (.mat n m fun i j => f a (t i j))
  | .mat n m t, .sc b => some (.mat n m fun i j => f (t i j) b)
  | .vec m v, .vec k w =>
      match bdim m k with
      | some r => some (.vec r fun j => f (v (bix m j)) (w (bix k j)))
      | none => none
  | .vec k w, .mat n m t =>
      match bdim k m with
      | some r => some (.mat n r fun i j => f (w (bix k j)) (t i (bix m j)))
      | none => none
  | .mat n m t, .vec k w =>
      match bdim m k with
      | some r => some (.mat n r fun i j => f (t i (bix m j)) (w (bix k j)))
      | none => none
  | .mat n m t, .mat p q u =>
      match bdim n p, bdim m q with
      | some r, some s =>
          some (.mat r s fun i j => f (t (bix n i) (bix m j)) (u (bix p i) (bix q j)))
      | _, _ => none

/-- torch broadcasting elementwise subtraction. -/
def bsub : TVal → TVal → Option TVal := bbin fun a b => a - b

/-- torch broadcasting elementwise multiplication. -/
def bmul : TVal → TVal → Option TVal := bbin fun a b => a * b

/-- torch elementwise negation. -/
def bneg : TVal → TVal
  | .sc c => .sc (-c)
  | .vec m v => .vec m fun j => -(v j)
  | .mat n m t => .mat n m fun i j => -(t i j)

/-- LossMSEGradFN.backward (Project_2/loss.py) over runtime-shaped
tensors, following torch semantics:
input_grad = (input_.value - target.value) * output_grad with torch
broadcasting, none modelling the RuntimeError on non-broadcastable
shapes; on success the pair (input_grad, -input_grad) of gradients passed
to input_.backward and target.backward is returned. -/
def LossMSEGradFN_backwardT (input_ target output_grad : TVal) :
    Option (TVal × TVal) :=
  match bsub input_ target with
  | none => none
  | some d =>
      match bmul d output_grad with
      | none => none
      | some input_grad => some (input_grad, bneg input_grad)

/-- torch ones_like(x) on a runtime tensor: an all-ones tensor of the
same shape. -/
def bones : TVal → TVal
  | .sc _ => .sc 1
  | .vec m _ => .vec m fun _ => 1
  | .mat n m _ => .mat n m fun _ _ => 1

/-- torch broadcasting elementwise addition. -/
def badd : TVal → TVal → Option TVal := bbin fun a b => a + b

/-- torch broadcasting elementwise division. -/
noncomputable def bdiv : TVal → TVal → Option TVal := bbin fun a b => a / b

/-- torch broadcasting elementwise maximum, torch a.maximum(b). -/
def bmax : TVal → TVal → Option TVal := bbin fun a b => max a b

/-- torch elementwise logarithm on a runtime tensor, modelled by Real.log
on positive entries as in logT. -/
noncomputable def blog : TVal → TVal
  | .sc c => .sc (Real.log c)
  | .vec m v => .vec m fun j => Real.log (v j)
  | .mat n m t => .mat n m fun i j => Real.log (t i j)

/-- Re-indexing through the same broadcast dimension twice changes
nothing: bix collapses. -/
theorem bix_idem (k i : ℕ) : bix k (bix k i) = bix k i := by
  by_cases h : k = 1 <;> simp [bix, h]

/-- LossBCEGradFN.backward (Project_2/loss.py) over runtime-shaped
tensors, following torch semantics: with x = input_.value,
y = target.value and eps = ones_like(x) * 1e-12, it propagates
((x - y) / ((1 - x) * x).maximum(eps)) * output_grad to input_.backward
and (-x.log() + (1 - x).log()) * output_grad to target.backward, every
binary step broadcasting as torch does and none modelling the
RuntimeError on non-broadcastable shapes; on success the pair (gradient
passed to input_, gradient passed to target) is returned. -/
noncomputable def LossBCEGradFN_backwardT (input_ target output_grad : TVal) :
    Option (TVal × TVal) :=
  let x := input_
  let y := target
  (bmul (bones x) (TVal.sc 1e-12)).bind fun eps =>
  (bsub x y).bind fun xy =>
  (bsub (TVal.sc 1) x).bind fun omx =>
  (bmul omx x).bind fun vx =>
  (bmax vx eps).bind fun den =>
  (bdiv xy den).bind fun fr =>
  (bmul fr output_grad).bind fun input_grad =>
  (badd (bneg (blog x)) (blog omx)).bind fun ts =>
  (bmul ts output_grad).bind fun target_grad =>
  some (input_grad, target_grad)

/-- C9 is refuted: backward does not fail fast on every output_grad whose
shape differs from the value shape of the node, and gradients are silently
broadcast during propagation.  Concretely, the loss HyperCube of an MSE
call on a (2, 1) prediction has value shape (1,), yet its gradient
function accepts the scalar output_grad 1 — a tensor of shape (), not
(1,) — and broadcasts it to the (2, 1) gradients it propagates, raising no
error. -/
theorem C9_counterexample :
    tshape (TVal.sc 1) ≠ [1]
      ∧ LossMSEGradFN_backwardT (.mat 2 1 fun _ _ => 3) (.mat 2 1 fun _ _ => 1)
          (.sc 1)
        = some (.mat 2 1 fun _ _ => ((3 : ℝ) - 1) * 1,
                .mat 2 1 fun _ _ => -(((3 : ℝ) - 1) * 1)) :=
  ⟨by simp [tshape], rfl⟩

/-- C9 amended: for both gradient functions, a non-broadcastable
output_grad does fail fast — the elementwise multiply inside
LossMSEGradFN.backward and inside LossBCEGradFN.backward raises — but a
broadcastable output_grad of a different shape, a scalar or a vector
aligning with the column dimension, is accepted and silently broadcast;
the backward multiply relies on exactly this to spread the loss gradient
over the batch dimension. -/
theorem C9_amended {n m k : ℕ} (x y : ℕ → ℕ → ℝ) (w : ℕ → ℝ)
    (hkm : m ≠ k) (hm1 : m ≠ 1) (hk1 : k ≠ 1) :
    LossMSEGradFN_backwardT (.mat n m x) (.mat n m y) (.vec k w) = none
      ∧ LossMSEGradFN_backwardT (.mat n m x) (.mat n m y) (.sc 1)
          = some
              (.mat n m fun i j =>
                (x (bix n i) (bix m j) - y (bix n i) (bix m j)) * 1,
               .mat n m fun i j =>
                -((x (bix n i) (bix m j) - y (bix n i) (bix m j)) * 1))
      ∧ LossMSEGradFN_backwardT (.mat n m x) (.mat n m y) (.vec m w)
          = some
              (.mat n m fun i j =>
                (x (bix n i) (bix m j) - y (bix n i) (bix m j)) * w (bix m j),
               .mat n m fun i j =>
                -((x (bix n i) (bix m j) - y (bix n i) (bix m j)) * w (bix m j)))
      ∧ LossBCEGradFN_backwardT (.mat n m x) (.mat n m y) (.vec k w) = none
      ∧ LossBCEGradFN_backwardT (.mat n m x) (.mat n m y) (.sc 1)
          = some
              (.mat n m fun i j =>
                (x (bix n i) (bix m j) - y (bix n i) (bix m j))
                  / max ((1 - x (bix n i) (bix m j)) * x (bix n i) (bix m j))
                      (1 * 1e-12) * 1,
               .mat n m fun i j =>
                (-Real.log (x (bix n i) (bix m j))
                  + Real.log (1 - x (bix n i) (bix m j))) * 1)
      ∧ LossBCEGradFN_backwardT (.mat n m x) (.mat n m y) (.vec m w)
          = some
              (.mat n m fun i j =>
                (x (bix n i) (bix m j) - y (bix n i) (bix m j))
                  / max ((1 - x (bix n i) (bix m j)) * x (bix n i) (bix m j))
                      (1 * 1e-12) * w (bix m j),
               .mat n m fun i j =>
                (-Real.log (x (bix n i) (bix m j))
                  + Real.log (1 - x (bix n i) (bix m j))) * w (bix m j)) := by
  refine ⟨?_, ?_, ?_, ?_, ?_, ?_⟩
  · simp [LossMSEGradFN_backwardT, bsub, bmul, bbin, bdim, hkm, hm1, hk1]
  · simp [LossMSEGradFN_backwardT, bsub, bmul, bbin, bdim, bneg]
  · simp [LossMSEGradFN_backwardT, bsub, bmul, bbin, bdim, bneg, bix_idem]
  · simp [LossBCEGradFN_backwardT, bones, bsub, bmul, bdiv, bmax, badd, blog,
      bneg, bbin, bdim, hkm, hm1, hk1]
  · simp [LossBCEGradFN_backwardT, bones, bsub, bmul, bdiv, bmax, badd, blog,
      bneg, bbin, bdim, bix_idem]
  · simp [LossBCEGradFN_backwardT, bones, bsub, bmul, bdiv, bmax, badd, blog,
      bneg, bbin, bdim, bix_idem]

/-- C9 amended witness: on a (2, 2) prediction, a length-3 output_grad is
non-broadcastable and the backward multiply of either gradient function
fails, while the scalar output_grad 1 and the column-aligned length-2
output_grad are broadcast and propagated by both. -/
theorem C9_amended_witness :
    LossMSEGradFN_backwardT (.mat 2 2 fun _ _ => 0) (.mat 2 2 fun _ _ => 0)
        (.vec 3 fun _ => 1)
      = none
      ∧ LossMSEGradFN_backwardT (.mat 2 2 fun _ _ => 0) (.mat 2 2 fun _ _ => 0)
          (.sc 1)
        = some (.mat 2 2 fun _ _ => ((0 : ℝ) - 0) * 1,
                .mat 2 2 fun _ _ => -(((0 : ℝ) - 0) * 1))
      ∧ LossMSEGradFN_backwardT (.mat 2 2 fun _ _ => 0) (.mat 2 2 fun _ _ => 0)
          (.vec 2 fun _ => 1)
        = some (.mat 2 2 fun _ _ => ((0 : ℝ) - 0) * 1,
                .mat 2 2 fun _ _ => -(((0 : ℝ) - 0) * 1))
      ∧ LossBCEGradFN_backwardT (.mat 2 2 fun _ _ => 0) (.mat 2 2 fun _ _ => 0)
          (.vec 3 fun _ => 1)
        = none
      ∧ LossBCEGradFN_backwardT (.mat 2 2 fun _ _ => 0) (.mat 2 2 fun _ _ => 0)
          (.sc 1)
        = some (.mat 2 2 fun _ _ =>
                  ((0 : ℝ) - 0) / max ((1 - 0) * 0) (1 * 1e-12) * 1,
                .mat 2 2 fun _ _ =>
                  (-Real.log 0 + Real.log (1 - 0)) * 1)
      ∧ LossBCEGradFN_backwardT (.mat 2 2 fun _ _ => 0) (.mat 2 2 fun _ _ => 0)
          (.vec 2 fun _ => 1)
        = some (.mat 2 2 fun _ _ =>
                  ((0 : ℝ) - 0) / max ((1 - 0) * 0) (1 * 1e-12) * 1,
                .mat 2 2 fun _ _ =>
                  (-Real.log 0 + Real.log (1 - 0)) * 1) :=
  C9_amended (fun _ _ => 0) (fun _ _ => 0) (fun _ => 1)
    (by decide) (by decide) (by decide)

namespace Project1

/-- Rank-4 tensor of shape (a, b, c, d): the MNIST pair data of
Project 1 has shape (N, 2, 14, 14). -/
abbrev T4 (a b c d : ℕ) : Type := Fin a → Fin b → Fin c → Fin d → ℝ

/-- The three normalization modes of Project_1/util.py. -/
inductive InputNormalization where
  | No
  | ElementWise
  | Total

/-- torch.std_mean(train_x, dim=(0, 1)), mean part: per-position mean over
the first two dimensions. -/
noncomputable def meanDim01 {a b c d : ℕ} (x : T4 a b c d) : Fin c → Fin d → ℝ :=
  fun k l => (∑ i, ∑ j, x i j k l) / (a * b)

/-- torch.std_mean(train_x, dim=(0, 1)), std part: per-position unbiased
standard deviation over the first two dimensions, with Bessel correction
a * b - 1. -/
noncomputable def stdDim01 {a b c d : ℕ} (x : T4 a b c d) : Fin c → Fin d → ℝ :=
  fun k l =>
    Real.sqrt ((∑ i, ∑ j, (x i j k l - meanDim01 x k l) ^ 2) / (a * b - 1))

/-- torch.std_mean(train_x), mean part: mean over all entries. -/
noncomputable def meanTotal {a b c d : ℕ} (x : T4 a b c d) : ℝ :=
  (∑ i, ∑ j, ∑ k, ∑ l, x i j k l) / (a * b * c * d)

/-- torch.std_mean(train_x), std part: unbiased standard deviation over
all entries. -/
noncomputable def stdTotal {a b c d : ℕ} (x : T4 a b c d) : ℝ :=
  Real.sqrt
    ((∑ i, ∑ j, ∑ k, ∑ l, (x i j k l - meanTotal x) ^ 2) / (a * b * c * d - 1))

/-- The std tensor selected by the mode branch of normalize
(Project_1/util.py) before the zero replacement: torch.tensor(1) for No,
the per-position std over dims (0, 1) for ElementWise, and the scalar std
of all entries for Total; a scalar broadcasts to every position (k, l). -/
noncomputable def rawStd {a b c d : ℕ} (mode : InputNormalization)
    (train_x : T4 a b c d) : Fin c → Fin d → ℝ :=
  match mode with
  | .No => fun _ _ => 1
  | .ElementWise => stdDim01 train_x
  | .Total => fun _ _ => stdTotal train_x

/-- The mean tensor selected by the mode branch of normalize
(Project_1/util.py): torch.tensor(0) for No, the per-position mean over
dims (0, 1) for ElementWise, and the scalar mean of all entries for
Total. -/
noncomputable def rawMean {a b c d : ℕ} (mode : InputNormalization)
    (train_x : T4 a b c d) : Fin c → Fin d → ℝ :=
  match mode with
  | .No => fun _ _ => 0
  | .ElementWise => meanDim01 train_x
  | .Total => fun _ _ => meanTotal train_x

open Classical in
/-- The in-place update std[std == 0] = 1 of normalize
(Project_1/util.py): every zero entry of std is replaced by 1. -/
noncomputable def zeroStdToOne {c d : ℕ} (std : Fin c → Fin d → ℝ) :
    Fin c → Fin d → ℝ :=
  fun k l => if std k l = 0 then 1 else std k l

/-- normalize (Project_1/util.py): selects std and mean by the
normalization mode, replaces every zero entry of std by 1, and returns
((train_x - mean) / std, (test_x - mean) / std), mean and std
broadcasting over the first two dimensions. -/
noncomputable def normalize {a b c d : ℕ} (train_x test_x : T4 a b c d)
    (input_normalization : InputNormalization) : T4 a b c d × T4 a b c d :=
  let std := zeroStdToOne (rawStd input_normalization train_x)
  let mean := rawMean input_normalization train_x
  (fun i j k l => (train_x i j k l - mean k l) / std k l,
   fun i j k l => (test_x i j k l - mean k l) / std k l)

end Project1

/-- C10: Project_1 normalize never divides by zero: after the in-place
replacement std[std == 0] = 1, every entry of the divisor is nonzero in
every normalization mode, and wherever the computed std was zero the
returned train and test entries are merely mean-shifted (divided by 1),
hence finite. -/
theorem C10_no_div_by_zero {a b c d : ℕ} (train_x test_x : Project1.T4 a b c d)
    (mode : Project1.InputNormalization) :
    (∀ k l, Project1.zeroStdToOne (Project1.rawStd mode train_x) k l ≠ 0)
      ∧ (∀ i j k l, Project1.rawStd mode train_x k l = 0 →
          (Project1.normalize train_x test_x mode).1 i j k l
              = train_x i j k l - Project1.rawMean mode train_x k l
            ∧ (Project1.normalize train_x test_x mode).2 i j k l
              = test_x i j k l - Project1.rawMean mode train_x k l) := by
  constructor
  · intro k l
    rw [Project1.zeroStdToOne]
    split
    · exact one_ne_zero
    · assumption
  · intro i j k l hz
    constructor <;>
      · show (_ - _) / Project1.zeroStdToOne (Project1.rawStd mode train_x) k l = _
        rw [Project1.zeroStdToOne, if_pos hz, div_one]
